import Mathlib

set_option maxHeartbeats 1000000

/-!
Shallow embedding of the streaming-session controller in src/ui/src/App.tsx:
the transcript reducer (the setMessages updater shared by the stream handler
and the fix handler), the full stream message handlers, the EventSource retry
hook useEventSourceWithRetry, and the transaction queue driver
handleTransaction. Fallible JavaScript code paths (dereferencing a missing
last entry) are modelled with Option, none standing for a thrown TypeError.
Wall-clock timestamps (new Date()) are omitted: no verified property concerns
them. JSON.parse of a transaction payload is an abstract parameter parseTxs,
standing for the platform JSON parser, which is not repository code.
-/

/-- Message role, from the Message interface: "user" | "ai". -/
inductive Role
  | user
  | ai
deriving DecidableEq, Repr

/-- A transcript entry, from the Message interface in App.tsx
(role, title, content; the Date timestamp is environment-provided and
omitted, the optional sessionId field is never written by the code). -/
structure Message where
  role : Role
  title : String
  content : String
deriving DecidableEq, Repr

/-- A decoded stream event, from the ForgeResponse / ForgeStep type:
a JSON object with a title and an output fragment. -/
structure ForgeStep where
  title : String
  output : String
deriving DecidableEq, Repr

/-- A proposed transaction, from the TransactionDetails interface. -/
structure TransactionDetails where
  «to» : String
  function : String
  arguments : List String
  value : String
  input_data : String
deriving DecidableEq, Repr

/-- Character-level matching of a pattern at the head of a list. -/
def matchesAt : List Char → List Char → Bool
  | [], _ => true
  | _ :: _, [] => false
  | a :: as, b :: bs => a == b && matchesAt as bs

/-- Character-level substring search helper. -/
def hasSubList (pat : List Char) : List Char → Bool
  | [] => pat.isEmpty
  | b :: bs => matchesAt pat (b :: bs) || hasSubList pat bs

/-- Models the JavaScript String.prototype.includes test used by
`data.output.includes("[{")` in getFix. -/
def containsSub (hay pat : String) : Bool :=
  hasSubList pat.data hay.data

/-- The duplicate-delivery guard of the setMessages updater
(`lastMessage?.content === data.output && lastMessage?.title === data.title`,
App.tsx lines 176-178 and 252-254); with no last entry the optional chaining
yields undefined and the comparison is false. -/
def guardHit (prev : List Message) (data : ForgeStep) : Bool :=
  match prev.getLast? with
  | some l => l.content == data.output && l.title == data.title
  | none => false

/-- The new-step test of the setMessages updater
(`lastMessage?.title !== data.title && data.title !== "Error"`, App.tsx
line 180 and line 256); with no last entry the title comparison is true. -/
def isNewStep (prev : List Message) (data : ForgeStep) : Bool :=
  (match prev.getLast? with
   | some l => l.title != data.title
   | none => true) && data.title != "Error"

/-- The append branch of the setMessages updater: content is extended and,
for an "Error" event, the title is suffixed with the failure marker
(App.tsx lines 189-195). -/
def appendToLast (l : Message) (data : ForgeStep) : Message :=
  { l with
    content := l.content ++ data.output,
    title := if data.title == "Error" then l.title ++ " (Failed)" else l.title }

/-- The setMessages updater of the stream handler (App.tsx lines 172-197);
the fix handler repeats it verbatim (lines 248-273). Returns none exactly
where the JavaScript would dereference a missing last entry and throw
(append branch with an empty transcript). -/
def foldStep (prev : List Message) (data : ForgeStep) : Option (List Message) :=
  if guardHit prev data then some prev
  else if isNewStep prev data then
    some (prev ++ [{ role := .ai, title := data.title, content := data.output }])
  else
    match prev.getLast? with
    | some l => some (prev.dropLast ++ [appendToLast l data])
    | none => none

/-- Folding a list of events in delivery order through the updater. -/
def foldEvents (msgs : List Message) : List ForgeStep → Option (List Message)
  | [] => some msgs
  | e :: es => (foldStep msgs e).bind (fun m => foldEvents m es)

/-- Concatenation of output fragments in delivery order. -/
def concatOutputs : List String → String
  | [] => ""
  | o :: rest => o ++ concatOutputs rest

/-- Decidable side condition for a same-title run of outputs: no output
equals the content accumulated just before it is folded, so the
duplicate-delivery guard never fires along the run. -/
def noDupFold (acc : String) : List String → Bool
  | [] => true
  | o :: rest => acc != o && noDupFold (acc ++ o) rest

/-- State owned by the controller that the stream handlers touch:
the transcript, the retained session token (tempDir) and the
transaction queue. -/
structure QueryState where
  messages : List Message
  tempDir : Option String
  transactions : List TransactionDetails
deriving DecidableEq, Repr

/-- The message listener of query (App.tsx lines 156-198): Debug events are
dropped, Session events overwrite tempDir and return, everything else goes
through the setMessages updater. It has no transaction-parsing branch. -/
def queryOnMessage (st : QueryState) (data : ForgeStep) : Option QueryState :=
  if data.title == "Debug" then some st
  else if data.title == "Session" then some { st with tempDir := some data.output }
  else (foldStep st.messages data).map (fun ms => { st with messages := ms })

/-- The onmessage listener of getFix (App.tsx lines 233-274): Debug events
are dropped; an event titled "Simulating Transactions" whose output contains
"[{" replaces the queue with the parsed payload; every non-Debug event then
goes through the same setMessages updater. parseTxs stands for JSON.parse. -/
def fixOnMessage (parseTxs : String → List TransactionDetails)
    (st : QueryState) (data : ForgeStep) : Option QueryState :=
  if data.title == "Debug" then some st
  else
    let st1 :=
      if data.title == "Simulating Transactions" && containsSub data.output "[\x7b"
      then { st with transactions := parseTxs data.output }
      else st
    (foldStep st1.messages data).map (fun ms => { st1 with messages := ms })

/-- Folding a list of decoded events through the query message listener. -/
def processQueryEvents (st : QueryState) : List ForgeStep → Option QueryState
  | [] => some st
  | e :: es => (queryOnMessage st e).bind (fun st1 => processQueryEvents st1 es)

/-- The temp_dir query parameter of the fix request: `tempDir || ""`
(App.tsx line 229); for string-or-null tempDir this is getD "". -/
def fixTempDirParam (st : QueryState) : String :=
  st.tempDir.getD ""

/-- Connection phase of the retry hook: still reconnecting, or terminated
after the error callback fired. -/
inductive StreamPhase
  | connecting
  | terminated
deriving DecidableEq, Repr

/-- Observable state of useEventSourceWithRetry under a stream that fails
every attempt: the retryCount closure variable, the phase, the list of
reconnect delays passed to setTimeout so far, and the number of times the
terminal onError callback has run. -/
structure RetryState where
  retryCount : Nat
  phase : StreamPhase
  delays : List Nat
  errorCalls : Nat
deriving DecidableEq, Repr

/-- The JavaScript condition `!options.maxRetries || retryCount <
options.maxRetries` (App.tsx line 73): undefined and 0 are both falsy, so
either yields true. -/
def jsRetryCond : Option Nat → Nat → Bool
  | none, _ => true
  | some m, rc => m == 0 || decide (rc < m)

/-- State before the first failure: retryCount 0, connecting, nothing
scheduled, no error callback. -/
def initRetryState : RetryState :=
  { retryCount := 0, phase := .connecting, delays := [], errorCalls := 0 }

/-- One onerror firing of the hook (App.tsx lines 69-80): close the source;
if the retry condition holds, increment retryCount and schedule a reconnect
after 1000 * retryCount ms; otherwise invoke the terminal error callback.
After termination no source is open, so no further transition happens. -/
def onErrorStep (maxRetries : Option Nat) (s : RetryState) : RetryState :=
  match s.phase with
  | .terminated => s
  | .connecting =>
    if jsRetryCond maxRetries s.retryCount then
      { s with
        retryCount := s.retryCount + 1,
        delays := s.delays ++ [1000 * (s.retryCount + 1)] }
    else
      { s with phase := .terminated, errorCalls := s.errorCalls + 1 }

/-- State of the hook after n connection attempts have failed in a row
(the claimed always-failing environment). -/
def runFailing (maxRetries : Option Nat) : Nat → RetryState
  | 0 => initRetryState
  | n + 1 => onErrorStep maxRetries (runFailing maxRetries n)

/-- The outcome of one wallet-provider submission: the resolved result
object, or the thrown/rejected error message. -/
inductive WalletResult
  | success (hash : String)
  | failure (message : String)
deriving DecidableEq, Repr

/-- State touched by the transaction-queue driver: the transcript, the
remaining queue, and the processed counter txCount. -/
structure TxState where
  messages : List Message
  transactions : List TransactionDetails
  txCount : Nat
deriving DecidableEq, Repr

/-- The pending-signature entry appended before requesting a signature
(App.tsx lines 298-303): title is function, a space, txCount, "/", and the
length of the transactions array at that moment. -/
def mkPendingMessage (tx : TransactionDetails) (txCount : Nat) (queueLen : Nat) :
    Message :=
  { role := .ai,
    title := tx.function ++ " " ++ toString txCount ++ "/" ++ toString queueLen,
    content := "Please sign this transaction:\n\nTo: " ++ tx.«to»
      ++ "\nFunction: " ++ tx.function
      ++ "\nArguments: " ++ String.intercalate ", " tx.arguments
      ++ "\nValue: " ++ tx.value ++ " ETH" }

/-- The success entry appended after the provider resolves
(App.tsx lines 323-328). -/
def txSentMessage (hash : String) : Message :=
  { role := .ai, title := "Transaction",
    content := "Transaction sent! Hash: " ++ hash }

/-- The catch branch of handleTransaction (App.tsx lines 333-344): suffix the
last entry title with the failure marker only when that title is exactly
"Transaction", then append a newline and the error message to its content.
With no last entry the content access would throw, hence Option. -/
def txFailureUpdate (msgs : List Message) (emsg : String) : Option (List Message) :=
  match msgs.getLast? with
  | none => none
  | some last =>
    let last1 :=
      if last.title == "Transaction" then { last with title := last.title ++ " (Failed)" }
      else last
    some (msgs.dropLast ++ [{ last1 with content := last1.content ++ "\n" ++ emsg }])

/-- One run of handleTransaction on the queue head (App.tsx lines 296-345),
with the wallet-provider outcome supplied as data: append the pending entry;
on success append the hash entry, pop the head and bump txCount; on failure
apply the catch branch to the transcript and leave queue and counter alone.
The driving effect only calls it when the queue is non-empty (line 347). -/
def handleTransaction (st : TxState) (r : WalletResult) : Option TxState :=
  match st.transactions with
  | [] => some st
  | tx :: rest =>
    let pending := mkPendingMessage tx st.txCount st.transactions.length
    let msgs1 := st.messages ++ [pending]
    match r with
    | .success hash =>
      some { messages := msgs1 ++ [txSentMessage hash],
             transactions := rest,
             txCount := st.txCount + 1 }
    | .failure emsg =>
      (txFailureUpdate msgs1 emsg).map (fun m => { st with messages := m })

/-- Sample proposed transaction used in concrete evaluations. -/
def txA : TransactionDetails :=
  { «to» := "0xaaa", function := "approve", arguments := ["0xspender", "100"],
    value := "0", input_data := "0x01" }

/-- Second sample proposed transaction used in concrete evaluations. -/
def txB : TransactionDetails :=
  { «to» := "0xbbb", function := "swap", arguments := ["100", "50"],
    value := "0", input_data := "0x02" }

/-- Helper: the element right after a prefix of known length. -/
theorem getElem?_append_cons {α : Type} (l l' : List α) (a : α) :
    (l ++ a :: l')[l.length]? = some a := by
  induction l with
  | nil => simp
  | cons x xs ih => simpa using ih

/-- Helper: state of the always-failing retry hook while the cap is not yet
reached: still connecting, k retries scheduled with delays 1000 * 1 .. 1000 * k,
no terminal error callback. -/
theorem retry_cap_le (N : Nat) :
    ∀ k, k ≤ N → runFailing (some N) k =
      { retryCount := k, phase := .connecting,
        delays := (List.range k).map (fun i => 1000 * (i + 1)), errorCalls := 0 } := by
  intro k
  induction k with
  | zero => intro _; simp [runFailing, initRetryState]
  | succ k ih =>
    intro hk
    have hlt : k < N := hk
    show onErrorStep (some N) (runFailing (some N) k) = _
    rw [ih (Nat.le_of_succ_le hk)]
    simp [onErrorStep, jsRetryCond, hlt, List.range_succ]

/-- C4: with a configured retry cap N of at least 1 and a connection failing
on every attempt, the hook makes exactly N retry attempts, schedules the k-th
retry after a delay of k * 1000 ms (delays 1000, 2000, ..., N * 1000), and
then invokes the terminal error callback exactly once: the state after the
cap is reached is terminated with errorCalls 1, and stays so however many
further failure events occur. -/
theorem c4_retry_bound : ∀ N : Nat, 1 ≤ N → ∀ m : Nat,
    runFailing (some N) (N + 1 + m) =
      { retryCount := N, phase := .terminated,
        delays := (List.range N).map (fun i => 1000 * (i + 1)), errorCalls := 1 } := by
  intro N hN m
  induction m with
  | zero =>
    have h := retry_cap_le N N (Nat.le_refl N)
    have hz : (N == 0) = false := by
      simp only [beq_eq_false_iff_ne, ne_eq]
      omega
    show onErrorStep (some N) (runFailing (some N) N) = _
    rw [h]
    simp [onErrorStep, jsRetryCond, hz, Nat.lt_irrefl]
  | succ m ih =>
    show onErrorStep (some N) (runFailing (some N) (N + 1 + m)) = _
    rw [ih]
    rfl

/-- Witness for C4 at cap 2: terminal state after 3 failures, with the
delay list evaluating to 1000 ms then 2000 ms. -/
theorem c4_retry_bound_witness :
    runFailing (some 2) (2 + 1 + 0) =
      { retryCount := 2, phase := .terminated,
        delays := (List.range 2).map (fun i => 1000 * (i + 1)), errorCalls := 1 } ∧
    (List.range 2).map (fun i => 1000 * (i + 1)) = [1000, 2000] :=
  ⟨c4_retry_bound 2 (by decide) 0, by decide⟩

/-- C9: a configured cap of 0 is falsy in the JavaScript retry condition, so
the hook behaves exactly as with no cap at all: after every failure it keeps
retrying (still connecting, one more retry scheduled per failure) and the
terminal error callback never runs. -/
theorem c9_zero_cap_retries_forever : ∀ n : Nat,
    runFailing (some 0) n = runFailing none n ∧
    (runFailing (some 0) n).phase = .connecting ∧
    (runFailing (some 0) n).errorCalls = 0 ∧
    (runFailing (some 0) n).retryCount = n := by
  intro n
  induction n with
  | zero => exact ⟨rfl, rfl, rfl, rfl⟩
  | succ n ih =>
    obtain ⟨he, hp, hc, hr⟩ := ih
    rcases hs : runFailing (some 0) n with ⟨rc, ph, ds, ec⟩
    rw [hs] at he hp hc hr
    simp only at hp hc hr
    subst hp
    subst hc
    subst hr
    have hstep : runFailing (some 0) (rc + 1) =
        { retryCount := rc + 1, phase := .connecting,
          delays := ds ++ [1000 * (rc + 1)], errorCalls := 0 } := by
      show onErrorStep (some 0) (runFailing (some 0) rc) = _
      rw [hs]
      rfl
    have hstep2 : runFailing none (rc + 1) =
        { retryCount := rc + 1, phase := .connecting,
          delays := ds ++ [1000 * (rc + 1)], errorCalls := 0 } := by
      show onErrorStep none (runFailing none rc) = _
      rw [← he]
      rfl
    exact ⟨by rw [hstep, hstep2], by rw [hstep], by rw [hstep], by rw [hstep]⟩

/-- C10: the transcript fold is not total: an event titled "Error" arriving
on an empty transcript misses the new-step branch (its title equals "Error")
and the append branch then dereferences a missing last entry — modelled as
none — in the stream handler and in the textually identical fix handler
alike. -/
theorem c10_error_on_empty_crashes : ∀ out : String,
    foldStep [] ⟨"Error", out⟩ = none ∧
    queryOnMessage ⟨[], none, []⟩ ⟨"Error", out⟩ = none ∧
    fixOnMessage (fun _ => []) ⟨[], none, []⟩ ⟨"Error", out⟩ = none := by
  intro out
  exact ⟨rfl, rfl, rfl⟩

/-- Helper: the duplicate guard on a transcript with an explicit last entry. -/
theorem guardHit_concat (ms : List Message) (l : Message) (e : ForgeStep) :
    guardHit (ms ++ [l]) e = (l.content == e.output && l.title == e.title) := by
  simp [guardHit, List.getLast?_concat]

/-- Helper: the new-step test on a transcript with an explicit last entry. -/
theorem isNewStep_concat (ms : List Message) (l : Message) (e : ForgeStep) :
    isNewStep (ms ++ [l]) e = (l.title != e.title && e.title != "Error") := by
  simp [isNewStep, List.getLast?_concat]

/-- Helper: the fold takes the append branch when neither the guard nor the
new-step test holds. -/
theorem foldStep_concat_append (ms : List Message) (l : Message) (e : ForgeStep)
    (hguard : (l.content == e.output && l.title == e.title) = false)
    (hnew : (l.title != e.title && e.title != "Error") = false) :
    foldStep (ms ++ [l]) e = some (ms ++ [appendToLast l e]) := by
  simp [foldStep, guardHit_concat, isNewStep_concat, hguard, hnew,
    List.getLast?_concat, List.dropLast_concat]

/-- Helper: the fold starts a new entry when the guard fails and the
new-step test holds. -/
theorem foldStep_concat_new (ms : List Message) (l : Message) (e : ForgeStep)
    (hguard : (l.content == e.output && l.title == e.title) = false)
    (hnew : (l.title != e.title && e.title != "Error") = true) :
    foldStep (ms ++ [l]) e =
      some ((ms ++ [l]) ++ [{ role := .ai, title := e.title, content := e.output }]) := by
  simp [foldStep, guardHit_concat, isNewStep_concat, hguard, hnew]

/-- Helper: folding a guard-free run of same-title events (title not
"Error") into the current last entry appends the concatenated outputs. -/
theorem fold_same_title_append (t : String) (ht : t ≠ "Error") :
    ∀ (outs : List String) (ms : List Message) (entry : Message),
      entry.title = t →
      noDupFold entry.content outs = true →
      foldEvents (ms ++ [entry]) (outs.map (fun o => ⟨t, o⟩)) =
        some (ms ++ [{ entry with content := entry.content ++ concatOutputs outs }]) := by
  intro outs
  induction outs with
  | nil =>
    intro ms entry _ _
    simp [foldEvents, concatOutputs, String.append_empty]
  | cons o rest ih =>
    intro ms entry htitle hnd
    have hsplit : (entry.content != o) = true ∧
        noDupFold (entry.content ++ o) rest = true := by
      simpa [noDupFold, Bool.and_eq_true] using hnd
    have hne : (entry.content == o) = false := by
      have h1 := hsplit.1
      simp [bne] at h1
      simp [h1]
    have hguard : (entry.content == o && entry.title == t) = false := by
      simp [hne]
    have hnew : (entry.title != t && t != "Error") = false := by
      rw [htitle]
      simp
    have happ : appendToLast entry ⟨t, o⟩ =
        { entry with content := entry.content ++ o } := by
      have : (t == "Error") = false := by simp [ht]
      simp [appendToLast, this]
    rw [show foldEvents (ms ++ [entry]) ((o :: rest).map (fun x => (⟨t, x⟩ : ForgeStep))) =
        (foldStep (ms ++ [entry]) ⟨t, o⟩).bind
          (fun m => foldEvents m (rest.map (fun x => ⟨t, x⟩))) from rfl]
    rw [foldStep_concat_append ms entry ⟨t, o⟩ hguard hnew, happ, Option.some_bind]
    rw [ih ms { entry with content := entry.content ++ o } htitle hsplit.2]
    simp [concatOutputs, String.append_assoc]

/-- C1 (amended): a non-empty run of events sharing one title t (t not
"Error"), folded into a transcript whose last entry has a different title,
creates exactly one new transcript entry whose content is the concatenation
of the outputs in delivery order — provided no output equals the content
accumulated just before it is folded, so the duplicate-delivery guard never
fires along the run. -/
theorem c1_step_grouping : ∀ (ms : List Message) (lastE : Message) (t o : String)
    (outs : List String),
    t ≠ "Error" → lastE.title ≠ t → noDupFold o outs = true →
    foldEvents (ms ++ [lastE]) ((o :: outs).map (fun x => ⟨t, x⟩)) =
      some ((ms ++ [lastE]) ++
        [{ role := .ai, title := t, content := concatOutputs (o :: outs) }]) := by
  intro ms lastE t o outs ht hl hnd
  have htl : (lastE.title == t) = false := by simp [hl]
  have hguard : (lastE.content == o && lastE.title == t) = false := by
    simp [htl]
  have hnew : (lastE.title != t && t != "Error") = true := by
    simp [bne, hl, ht]
  rw [show foldEvents (ms ++ [lastE]) ((o :: outs).map (fun x => (⟨t, x⟩ : ForgeStep))) =
      (foldStep (ms ++ [lastE]) ⟨t, o⟩).bind
        (fun m => foldEvents m (outs.map (fun x => ⟨t, x⟩))) from rfl]
  rw [foldStep_concat_new ms lastE ⟨t, o⟩ hguard hnew, Option.some_bind]
  rw [fold_same_title_append t ht outs (ms ++ [lastE]) ⟨.ai, t, o⟩ rfl hnd]
  rfl

/-- Witness for C1 at a concrete run: two "swap" fragments folded after a
user entry produce one "swap" entry whose content is the concatenation. -/
theorem c1_step_grouping_witness :
    foldEvents [⟨.user, "Prompt", "hi"⟩] [⟨"swap", "Calculating"⟩, ⟨"swap", " route"⟩] =
      some [⟨.user, "Prompt", "hi"⟩,
        ⟨.ai, "swap", concatOutputs ["Calculating", " route"]⟩] ∧
    concatOutputs ["Calculating", " route"] = "Calculating route" :=
  ⟨c1_step_grouping [] ⟨.user, "Prompt", "hi"⟩ "swap" "Calculating" [" route"]
    (by decide) (by decide) (by decide), by decide⟩

/-- Counterexample to C1 as stated: two same-title events whose outputs are
both "a" fold to a single entry with content "a", not the concatenation
"aa" — the second delivery is absorbed by the duplicate guard. -/
theorem c1_step_grouping_counterexample :
    foldEvents [⟨.ai, "Init", "x"⟩] [⟨"swap", "a"⟩, ⟨"swap", "a"⟩] =
      some [⟨.ai, "Init", "x"⟩, ⟨.ai, "swap", "a"⟩] ∧
    ("a" : String) ≠ "aa" := by
  exact ⟨by decide, by decide⟩

/-- C2 (amended): folding the same StepEvent twice in a row is a no-op the
second time whenever the first fold was itself absorbed by the duplicate
guard or started a new entry; a duplicate delivery whose first fold appended
to an existing entry is applied again (the guard only absorbs a duplicate
whose output equals the entire accumulated content of the last entry). -/
theorem c2_idempotence : ∀ (msgs : List Message) (e : ForgeStep) (msgs' : List Message),
    foldStep msgs e = some msgs' →
    (guardHit msgs e = true ∨ isNewStep msgs e = true) →
    foldStep msgs' e = some msgs' := by
  intro msgs e msgs' h hcase
  by_cases hg : guardHit msgs e = true
  · unfold foldStep at h ⊢
    rw [if_pos hg] at h
    obtain rfl : msgs = msgs' := Option.some.inj h
    rw [if_pos hg]
  · have hn : isNewStep msgs e = true := hcase.resolve_left hg
    unfold foldStep at h
    rw [if_neg hg, if_pos hn] at h
    obtain rfl : msgs' = msgs ++ [⟨.ai, e.title, e.output⟩] := (Option.some.inj h).symm
    have hg' : guardHit (msgs ++ [⟨.ai, e.title, e.output⟩]) e = true := by
      simp [guardHit_concat]
    unfold foldStep
    rw [if_pos hg']

/-- Witness for C2 at a concrete input: refolding the event that created the
"swap" entry leaves the transcript unchanged. -/
theorem c2_idempotence_witness :
    foldStep [⟨.ai, "swap", "a"⟩] ⟨"swap", "a"⟩ = some [⟨.ai, "swap", "a"⟩] :=
  c2_idempotence [] ⟨"swap", "a"⟩ [⟨.ai, "swap", "a"⟩] (by decide)
    (Or.inr (by decide))

/-- Counterexample to C2 as stated: appending the fragment "y" to a "swap"
entry that already holds "x" gives "xy"; delivering the same event again
appends again, giving "xyy" — folding twice differs from folding once. -/
theorem c2_idempotence_counterexample :
    (foldStep [⟨.ai, "swap", "x"⟩] ⟨"swap", "y"⟩).bind
        (fun t => foldStep t ⟨"swap", "y"⟩) ≠
      foldStep [⟨.ai, "swap", "x"⟩] ⟨"swap", "y"⟩ := by
  decide

/-- C3 (amended): an event titled "Error" folded into a non-empty transcript
never creates a new entry: it appends its output to the last entry and
suffixes that entry title with the failure marker, whatever the last entry
title is — unless the last entry title is exactly "Error" and its content
already equals the event output, in which case the duplicate guard returns
the transcript unchanged (a last entry the reducer itself can never
produce, since new entries are only created for titles other than
"Error"). -/
theorem c3_error_absorption : ∀ (ms : List Message) (lastE : Message) (e : ForgeStep),
    e.title = "Error" →
    ¬ (lastE.content = e.output ∧ lastE.title = "Error") →
    foldStep (ms ++ [lastE]) e =
      some (ms ++ [{ lastE with
        title := lastE.title ++ " (Failed)",
        content := lastE.content ++ e.output }]) := by
  intro ms lastE e he hng
  have hguard : (lastE.content == e.output && lastE.title == e.title) = false := by
    rw [he]
    by_cases h1 : lastE.content = e.output
    · by_cases h2 : lastE.title = "Error"
      · exact absurd ⟨h1, h2⟩ hng
      · simp [h2]
    · simp [h1]
  have hnew : (lastE.title != e.title && e.title != "Error") = false := by
    rw [he]
    simp
  have happ : appendToLast lastE e = { lastE with
      title := lastE.title ++ " (Failed)",
      content := lastE.content ++ e.output } := by
    simp [appendToLast, he]
  rw [foldStep_concat_append ms lastE e hguard hnew, happ]

/-- Witness for C3 at a concrete input: an "Error" fragment lands in the
in-progress "swap" entry and flags it, instead of opening an "Error"
entry. -/
theorem c3_error_absorption_witness :
    foldStep [⟨.ai, "swap", "x"⟩] ⟨"Error", " boom"⟩ =
      some [⟨.ai, "swap" ++ " (Failed)", "x" ++ " boom"⟩] ∧
    ("swap" ++ " (Failed)" : String) = "swap (Failed)" ∧
    ("x" ++ " boom" : String) = "x boom" :=
  ⟨c3_error_absorption [] ⟨.ai, "swap", "x"⟩ ⟨"Error", " boom"⟩ rfl (by decide),
    by decide, by decide⟩

/-- Counterexample to C3 as stated: with a last entry titled exactly "Error"
whose content equals the event output, the duplicate guard fires and the
fold neither appends the output nor suffixes the title. -/
theorem c3_error_absorption_counterexample :
    foldStep [⟨.ai, "Error", "boom"⟩] ⟨"Error", "boom"⟩ =
      some [⟨.ai, "Error", "boom"⟩] ∧
    (⟨.ai, "Error", "boom"⟩ : Message) ≠ ⟨.ai, "Error (Failed)", "boomboom"⟩ := by
  exact ⟨by decide, by decide⟩

/-- C5 (amended): the initial generation stream handler never modifies the
transaction queue — it has no parsing branch at all; only the fix stream
handler replaces the queue, and it does so for an event titled
"Simulating Transactions" whose output contains "[{": the resulting queue is
exactly the parsed collection, independent of (not merged with) any prior
pending collection. -/
theorem c5_plan_replacement :
    (∀ (st : QueryState) (e : ForgeStep) (st' : QueryState),
        queryOnMessage st e = some st' → st'.transactions = st.transactions) ∧
    (∀ (parseTxs : String → List TransactionDetails) (st : QueryState)
        (e : ForgeStep) (st' : QueryState),
        e.title = "Simulating Transactions" →
        containsSub e.output "[\x7b" = true →
        fixOnMessage parseTxs st e = some st' →
        st'.transactions = parseTxs e.output) := by
  constructor
  · intro st e st' h
    unfold queryOnMessage at h
    by_cases h1 : (e.title == "Debug") = true
    · rw [if_pos h1] at h
      obtain rfl : st = st' := Option.some.inj h
      rfl
    · rw [if_neg h1] at h
      by_cases h2 : (e.title == "Session") = true
      · rw [if_pos h2] at h
        obtain rfl : { st with tempDir := some e.output } = st' := Option.some.inj h
        rfl
      · rw [if_neg h2] at h
        cases hf : foldStep st.messages e with
        | none => rw [hf] at h; simp at h
        | some m =>
          rw [hf, Option.map_some'] at h
          obtain rfl : { st with messages := m } = st' := Option.some.inj h
          rfl
  · intro parseTxs st e st' he hc h
    unfold fixOnMessage at h
    rw [he, hc] at h
    simp only [Bool.and_true] at h
    rw [if_neg (by decide), if_pos (by decide)] at h
    cases hf : foldStep st.messages e with
    | none => rw [hf] at h; simp at h
    | some m =>
      rw [hf, Option.map_some'] at h
      obtain rfl : { st with transactions := parseTxs e.output, messages := m } = st' :=
        Option.some.inj h
      rfl

/-- Witness for C5: the query handler leaves a one-element queue alone on an
ordinary step event, and the fix handler replaces a [txA] queue with the
parsed collection [txB]. -/
theorem c5_plan_replacement_witness :
    (QueryState.transactions ⟨[⟨.ai, "Step", "hi"⟩], none, [txA]⟩ =
      QueryState.transactions ⟨[], none, [txA]⟩) ∧
    (QueryState.transactions ⟨[⟨.ai, "Simulating Transactions", "[\x7bn: 1\x7d]"⟩], none, [txB]⟩ =
      (fun _ => [txB]) "[\x7bn: 1\x7d]") :=
  ⟨c5_plan_replacement.1 ⟨[], none, [txA]⟩ ⟨"Step", "hi"⟩
      ⟨[⟨.ai, "Step", "hi"⟩], none, [txA]⟩ (by decide),
    c5_plan_replacement.2 (fun _ => [txB]) ⟨[], none, [txA]⟩
      ⟨"Simulating Transactions", "[\x7bn: 1\x7d]"⟩
      ⟨[⟨.ai, "Simulating Transactions", "[\x7bn: 1\x7d]"⟩], none, [txB]⟩
      rfl (by decide) (by decide)⟩

/-- Counterexample to C5 as stated: during the initial generation stream, an
event titled "Simulating Transactions" whose output is a JSON-encoded
transaction collection is folded into the transcript but the prior pending
queue [txA, txB] is retained unchanged — nothing is parsed or replaced. -/
theorem c5_plan_replacement_counterexample :
    queryOnMessage ⟨[], none, [txA, txB]⟩ ⟨"Simulating Transactions", "[\x7bn: 1\x7d]"⟩ =
      some ⟨[⟨.ai, "Simulating Transactions", "[\x7bn: 1\x7d]"⟩], none, [txA, txB]⟩ ∧
    containsSub "[\x7bn: 1\x7d]" "[\x7b" = true := by
  exact ⟨by decide, by decide⟩

/-- Helper: a non-Session event never changes the retained session token. -/
theorem queryOnMessage_tempDir (st : QueryState) (e : ForgeStep) (st' : QueryState)
    (h : queryOnMessage st e = some st') (hs : (e.title == "Session") = false) :
    st'.tempDir = st.tempDir := by
  unfold queryOnMessage at h
  by_cases h1 : (e.title == "Debug") = true
  · rw [if_pos h1] at h
    obtain rfl : st = st' := Option.some.inj h
    rfl
  · rw [if_neg h1, if_neg (by simp [hs])] at h
    cases hf : foldStep st.messages e with
    | none => rw [hf] at h; simp at h
    | some m =>
      rw [hf, Option.map_some'] at h
      obtain rfl : { st with messages := m } = st' := Option.some.inj h
      rfl

/-- Helper: a run of events with no Session event preserves the token. -/
theorem processQueryEvents_tempDir_noSession :
    ∀ (es : List ForgeStep) (st st' : QueryState),
      es.filter (fun x => x.title == "Session") = [] →
      processQueryEvents st es = some st' →
      st'.tempDir = st.tempDir := by
  intro es
  induction es with
  | nil =>
    intro st st' _ h
    obtain rfl : st = st' := Option.some.inj h
    rfl
  | cons e es ih =>
    intro st st' hf h
    cases hb : (e.title == "Session") with
    | true => simp [List.filter_cons, hb] at hf
    | false =>
      have hfes : es.filter (fun x => x.title == "Session") = [] := by
        simpa [List.filter_cons, hb] using hf
      have hstep : processQueryEvents st (e :: es) =
          (queryOnMessage st e).bind (fun st1 => processQueryEvents st1 es) := rfl
      rw [hstep] at h
      cases hq : queryOnMessage st e with
      | none => rw [hq] at h; simp at h
      | some st1 =>
        rw [hq, Option.some_bind] at h
        rw [ih st1 st' hfes h, queryOnMessage_tempDir st e st1 hq hb]

/-- C8 (amended): the session identifier retained by the controller is the
output of the most recent "Session"-titled event of the stream — each such
event overwrites the slot, so with several Session events the last one wins,
not the first — and a subsequent fix request passes exactly the retained
identifier as its temp_dir parameter. -/
theorem c8_session_retention : ∀ (es : List ForgeStep) (st st' : QueryState) (e : ForgeStep),
    processQueryEvents st es = some st' →
    (es.filter (fun x => x.title == "Session")).getLast? = some e →
    st'.tempDir = some e.output ∧ fixTempDirParam st' = e.output := by
  intro es
  induction es with
  | nil =>
    intro st st' e _ hlast
    simp at hlast
  | cons e0 es ih =>
    intro st st' e h hlast
    have hstep : processQueryEvents st (e0 :: es) =
        (queryOnMessage st e0).bind (fun st1 => processQueryEvents st1 es) := rfl
    rw [hstep] at h
    cases hq : queryOnMessage st e0 with
    | none => rw [hq] at h; simp at h
    | some st1 =>
      rw [hq, Option.some_bind] at h
      cases hb : (e0.title == "Session") with
      | false =>
        have hlast' : (es.filter (fun x => x.title == "Session")).getLast? = some e := by
          simpa [List.filter_cons, hb] using hlast
        exact ih st1 st' e h hlast'
      | true =>
        have he0 : e0.title = "Session" := by simpa using hb
        have hst1 : st1 = { st with tempDir := some e0.output } := by
          unfold queryOnMessage at hq
          rw [he0, if_neg (by decide), if_pos (by decide)] at hq
          exact (Option.some.inj hq).symm
        rw [List.filter_cons, if_pos hb] at hlast
        cases hfes : es.filter (fun x => x.title == "Session") with
        | nil =>
          rw [hfes] at hlast
          have he : e = e0 := by
            have := Option.some.inj hlast
            exact this.symm
          subst he
          have hpres := processQueryEvents_tempDir_noSession es st1 st' hfes h
          rw [hst1] at hpres
          refine ⟨hpres, ?_⟩
          unfold fixTempDirParam
          rw [hpres]
          rfl
        | cons f fs =>
          have hlast' : (es.filter (fun x => x.title == "Session")).getLast? = some e := by
            rw [hfes]
            rw [hfes] at hlast
            simpa [List.getLast?_cons_cons] using hlast
          exact ih st1 st' e h hlast'

/-- Witness for C8: a stream delivering Session events with outputs "a" then
"b" retains "b", and the fix request would pass "b". -/
theorem c8_session_retention_witness :
    QueryState.tempDir ⟨[], some "b", []⟩ = some "b" ∧
    fixTempDirParam ⟨[], some "b", []⟩ = "b" :=
  c8_session_retention [⟨"Session", "a"⟩, ⟨"Session", "b"⟩]
    ⟨[], none, []⟩ ⟨[], some "b", []⟩ ⟨"Session", "b"⟩ (by decide) (by decide)

/-- Counterexample to C8 as stated: after Session events with outputs "a"
then "b", the retained identifier is "b" — the output of the last Session
event — not the first output "a", and the fix request passes "b". -/
theorem c8_session_retention_counterexample :
    processQueryEvents ⟨[], none, []⟩ [⟨"Session", "a"⟩, ⟨"Session", "b"⟩] =
      some ⟨[], some "b", []⟩ ∧
    (some "b" : Option String) ≠ some "a" ∧
    fixTempDirParam ⟨[], some "b", []⟩ ≠ "a" := by
  exact ⟨by decide, by decide, by decide⟩

/-- Helper: the catch branch applied to a transcript with an explicit last
entry suffixes the title only when it is exactly "Transaction" and appends
a newline and the error message to the content. -/
theorem txFailureUpdate_concat (msgs : List Message) (l : Message) (emsg : String) :
    txFailureUpdate (msgs ++ [l]) emsg =
      some (msgs ++ [{ (if l.title == "Transaction"
          then { l with title := l.title ++ " (Failed)" } else l) with
        content := (if l.title == "Transaction"
          then { l with title := l.title ++ " (Failed)" } else l).content
          ++ "\n" ++ emsg }]) := by
  simp only [txFailureUpdate, List.getLast?_concat, List.dropLast_concat]

/-- C6 (amended): processing the head transaction first appends a transcript
entry titled with the function name, a space, the global processed counter
txCount, a slash and the CURRENT length of the queue (head included) — the
queue shrinks by one per completed transaction, so the denominator is not
the plan size at queue creation; the entry keeps that title, except that the
catch branch may suffix the failure marker. -/
theorem c6_progress_title : ∀ (msgs : List Message) (tx : TransactionDetails)
    (rest : List TransactionDetails) (c : Nat) (r : WalletResult) (st' : TxState),
    handleTransaction ⟨msgs, tx :: rest, c⟩ r = some st' →
    ∃ m, st'.messages[msgs.length]? = some m ∧
      (m.title = tx.function ++ " " ++ toString c ++ "/" ++ toString (rest.length + 1) ∨
       m.title = tx.function ++ " " ++ toString c ++ "/" ++ toString (rest.length + 1)
         ++ " (Failed)") := by
  intro msgs tx rest c r st' h
  cases r with
  | success hash =>
    obtain rfl :
        ({ messages := (msgs ++ [mkPendingMessage tx c (tx :: rest).length]) ++ [txSentMessage hash],
           transactions := rest, txCount := c + 1 } : TxState) = st' := Option.some.inj h
    refine ⟨mkPendingMessage tx c (tx :: rest).length, ?_, Or.inl rfl⟩
    show ((msgs ++ [mkPendingMessage tx c (tx :: rest).length]) ++
        [txSentMessage hash])[msgs.length]? = _
    rw [List.append_assoc]
    exact getElem?_append_cons msgs _ _
  | failure emsg =>
    have hupd := txFailureUpdate_concat msgs (mkPendingMessage tx c (tx :: rest).length) emsg
    have h' : (txFailureUpdate (msgs ++ [mkPendingMessage tx c (tx :: rest).length]) emsg).map
        (fun m => ({ messages := m, transactions := tx :: rest, txCount := c } : TxState)) =
        some st' := h
    rw [hupd, Option.map_some'] at h'
    obtain rfl := Option.some.inj h'
    refine ⟨_, getElem?_append_cons msgs [] _, ?_⟩
    by_cases hT : ((mkPendingMessage tx c (tx :: rest).length).title == "Transaction") = true
    · right
      simp only [hT, if_true]
      rfl
    · left
      simp only [hT, if_false]
      rfl

/-- Witness for C6 at a concrete input: with txCount 5 and a one-element
queue the pending entry is titled "approve 5/1". -/
theorem c6_progress_title_witness :
    ∃ m, (TxState.messages ⟨[mkPendingMessage txA 5 1, txSentMessage "h"], [], 6⟩)[(0 : Nat)]? =
        some m ∧
      (m.title = txA.function ++ " " ++ toString (5 : Nat) ++ "/" ++ toString (0 + 1) ∨
       m.title = txA.function ++ " " ++ toString (5 : Nat) ++ "/" ++ toString (0 + 1)
         ++ " (Failed)") :=
  c6_progress_title [] txA [] 5 (.success "h")
    ⟨[mkPendingMessage txA 5 1, txSentMessage "h"], [], 6⟩
    (by decide)

/-- Counterexample to C6 as stated: a plan of two transactions processed to
completion yields pending titles "approve 0/2" then "swap 1/1" — the
denominator of the second title is the shrunken queue length 1, not the
plan size 2 at queue creation. -/
theorem c6_progress_title_counterexample :
    ((handleTransaction ⟨[], [txA, txB], 0⟩ (.success "h1")).bind
        (fun s => handleTransaction s (.success "h2"))).map
          (fun s => s.messages.map Message.title) =
      some ["approve 0/2", "Transaction", "swap 1/1", "Transaction"] ∧
    ("swap 1/1" : String) ≠ "swap 1/2" := by
  exact ⟨by decide, by decide⟩

/-- C7: evaluation of the code at the failing input. The claim (and the spec)
say a wallet-submission failure marks the most recent entry failed; the code
appends the failure reason and leaves queue and counter alone, but the
failure marker is guarded by the test that the last title is exactly
"Transaction", which the pending entry (titled "approve 0/1" here) never
satisfies, so no entry is marked failed. -/
theorem c7_submission_failure_behavior :
    handleTransaction ⟨[], [txA], 0⟩ (.failure "user rejected") =
      some ⟨[{ mkPendingMessage txA 0 1 with
          content := (mkPendingMessage txA 0 1).content ++ "\n" ++ "user rejected" }],
        [txA], 0⟩ ∧
    (mkPendingMessage txA 0 1).title = "approve 0/1" ∧
    containsSub "approve 0/1" "Failed" = false := by
  exact ⟨by decide, by decide, by decide⟩
